import Mathlib

/-!
A verification development for the tutorial notebook
`tutorial1/tutorial1_DGP_and_bias.ipynb`: a synthetic-choice data generator
(linear-additive RUM-MNL data-generating process) followed by multinomial
logit estimation.  The generator and the closed-form parts of the estimator
are embedded shallowly below; the numpy Gumbel stream is modelled as an
abstract seeded stream `prng seed : ℕ → ℚ` consumed position by position,
since only the order of consumption (never the numeric values of the draws)
is at stake in the properties considered here.
-/

namespace Tutorial1

/-- A choice task row `(TC1, TT1, TC2, TT2)`: travel cost and travel time of
route 1, then of route 2, as in the notebook's `tasks` array. -/
structure Task where
  tc1 : ℤ
  tt1 : ℤ
  tc2 : ℤ
  tt2 : ℤ
  deriving DecidableEq, Repr

/-- `tasks = np.array([[4,35,8,25], [4,35,8,30], [6,40,7,20], [5,30,6,25], [5,40,7,20]])`. -/
def tasks : List Task :=
  [⟨4, 35, 8, 25⟩, ⟨4, 35, 8, 30⟩, ⟨6, 40, 7, 20⟩, ⟨5, 30, 6, 25⟩, ⟨5, 40, 7, 20⟩]

/-- `N = 200`, the number of simulated respondents. -/
def numRespondents : ℕ := 200

/-- The true parameters of the data-generating process. -/
structure TrueParams where
  beta_tc : ℚ
  beta_tt : ℚ
  asc1 : ℚ
  asc2 : ℚ
  deriving DecidableEq, Repr

/-- `beta_tt = -0.1`, `beta_tc = -0.4`, `asc1 = 0`, `asc2 = 1`. -/
def trueParams : TrueParams := ⟨-2/5, -1/10, 0, 1⟩

/-- `np.tile(tasks, (N, 1))`: the task table repeated `N` times, stacked. -/
def tile (ts : List Task) (N : ℕ) : List Task :=
  (List.replicate N ts).flatten

/-- `np.repeat(np.arange(1, N+1), T)`: respondent ids `1..N`, each repeated
`T` times (`T = len(tasks)`). -/
def respIds (N T : ℕ) : List ℕ :=
  (List.range N).flatMap (fun r => List.replicate T (r + 1))

/-- The dataframe rows `['RESP','TC1','TT1','TC2','TT2']`: respondent ids
column-concatenated with the tiled task attributes. -/
def dfRows (ts : List Task) (N : ℕ) : List (ℕ × Task) :=
  (respIds N ts.length).zip (tile ts N)

/-- `V1 = asc1 + beta_tc * TC1 + beta_tt * TT1`. -/
def V1 (p : TrueParams) (t : Task) : ℚ :=
  p.asc1 + p.beta_tc * (t.tc1 : ℚ) + p.beta_tt * (t.tt1 : ℚ)

/-- `V2 = asc2 + beta_tc * TC2 + beta_tt * TT2`. -/
def V2 (p : TrueParams) (t : Task) : ℚ :=
  p.asc2 + p.beta_tc * (t.tc2 : ℚ) + p.beta_tt * (t.tt2 : ℚ)

/-- One `np.random.gumbel()` draw: the value of the seeded stream `s` at the
current position, and the advanced position. -/
def drawGumbel (s : ℕ → ℚ) (p : ℕ) : ℚ × ℕ :=
  (s p, p + 1)

/-- `np.random.gumbel(size=n)`: `n` sequential draws from the seeded stream
starting at position `p`, returning the drawn column and the final position. -/
def drawColumn (s : ℕ → ℚ) : ℕ → ℕ → List ℚ × ℕ
  | 0, p => ([], p)
  | n + 1, p =>
    let v := drawGumbel s p
    let rest := drawColumn s n v.2
    (v.1 :: rest.1, rest.2)

/-- The code's draw order (notebook cell 8): first the whole `epsilon1` column
with `np.random.gumbel(size=len(df))`, then the whole `epsilon2` column. -/
def epsilonColumns (s : ℕ → ℚ) (n : ℕ) : List ℚ × List ℚ :=
  let e1 := drawColumn s n 0
  let e2 := drawColumn s n e1.2
  (e1.1, e2.1)

/-- The draw order asserted by the spec (stated for comparison with
`epsilonColumns`): for each observation in ascending respondent/task order,
draw that observation's ε1 and then its ε2 before moving to the next
observation, so the stream is consumed observation by observation. -/
def epsilonInterleaved (s : ℕ → ℚ) : ℕ → ℕ → List ℚ × List ℚ
  | 0, _ => ([], [])
  | n + 1, p =>
    let v1 := drawGumbel s p
    let v2 := drawGumbel s v1.2
    let rest := epsilonInterleaved s n v2.2
    (v1.1 :: rest.1, v2.1 :: rest.2)

/-- The `CHOICE` assignment: initialised to NaN (no choice), set to `1` where
`U1 > U2` and to `2` where `U2 > U1`; a tie leaves the initial missing value. -/
def choiceOf (u1 u2 : ℚ) : Option ℕ :=
  if u1 > u2 then some 1 else if u2 > u1 then some 2 else none

/-- `df['CHOICE'].astype(int)`: pandas converts the float column to integers
and raises on a missing value (NaN) rather than coercing it. -/
def castChoiceInt : Option ℕ → Except String ℕ
  | some c => Except.ok c
  | none => Except.error "cannot convert non-finite values to integer"

/-- The global numpy RNG state: which seed the current stream was started
from, and the position reached within that stream. -/
structure RngState where
  seed : ℕ
  pos : ℕ
  deriving DecidableEq, Repr

/-- `np.random.seed(k)`: reset the global stream to seed `k`, position 0,
discarding whatever state was there before. -/
def seedRng (k : ℕ) (_st : RngState) : RngState := ⟨k, 0⟩

/-- One generated observation: the dataframe row after cell 8 (respondent id,
task attributes, deterministic utilities, error draws, total utilities,
realised choice). -/
structure Obs where
  resp : ℕ
  task : Task
  v1 : ℚ
  v2 : ℚ
  e1 : ℚ
  e2 : ℚ
  u1 : ℚ
  u2 : ℚ
  choice : Option ℕ
  deriving DecidableEq, Repr

/-- The Generator (notebook cells 4, 6 and 8): build the dataframe rows,
compute `V1`/`V2`, seed the global RNG with `np.random.seed(seed)`, draw the
`epsilon1` column then the `epsilon2` column, form total utilities and assign
choices.  `prng k` is the Gumbel value stream the library produces from seed
`k`; `st` is the incoming global RNG state, overwritten by the seeding.
`mkObs` builds one finished row from a dataframe row and its two draws. -/
def mkObs (p : TrueParams) (rt : (ℕ × Task) × (ℚ × ℚ)) : Obs :=
  let v1 := V1 p rt.1.2
  let v2 := V2 p rt.1.2
  let u1 := v1 + rt.2.1
  let u2 := v2 + rt.2.2
  ⟨rt.1.1, rt.1.2, v1, v2, rt.2.1, rt.2.2, u1, u2, choiceOf u1 u2⟩

def generate (prng : ℕ → ℕ → ℚ) (ts : List Task) (N : ℕ) (p : TrueParams)
    (seed : ℕ) (st : RngState) : List Obs :=
  let rows := dfRows ts N
  let n := rows.length
  let st1 := seedRng seed st
  let s := prng st1.seed
  let eps := epsilonColumns s n
  (rows.zip (eps.1.zip eps.2)).map (mkObs p)

/-! ## The estimator side: biogeme `Beta` parameters and the logit formula -/

/-- A biogeme `Beta('name', start, lower, upper, flag)` parameter: the flag is
`0` when the parameter is estimated and `1` when it is fixed to the starting
value. -/
structure BetaParam where
  name : String
  start : ℚ
  lb : Option ℚ
  ub : Option ℚ
  fixedFlag : ℕ
  deriving DecidableEq, Repr

/-- `B_TT = Beta('B_TT', 0, None, None, 0)`. -/
def B_TT : BetaParam := ⟨"B_TT", 0, none, none, 0⟩

/-- `B_TC = Beta('B_TC', 0, None, None, 0)`. -/
def B_TC : BetaParam := ⟨"B_TC", 0, none, none, 0⟩

/-- `ASC1 = Beta('ASC1', 0, None, None, 1)`. -/
def ASC1 : BetaParam := ⟨"ASC1", 0, none, none, 1⟩

/-- `ASC2 = Beta('ASC2', 0, None, None, 0)`. -/
def ASC2 : BetaParam := ⟨"ASC2", 0, none, none, 0⟩

/-- The parameters of the correctly specified (with-ASC) model, in definition
order. -/
def modelParams : List BetaParam := [B_TT, B_TC, ASC1, ASC2]

/-- The parameters the estimation call actually optimises over: those whose
flag is `0`. -/
def freeParams : List BetaParam := modelParams.filter (fun b => b.fixedFlag == 0)

/-- `models.logit(V, av, 1)` with both alternatives available: the MNL choice
probability of alternative 1. -/
noncomputable def logitProb1 (v1 v2 : ℝ) : ℝ :=
  Real.exp v1 / (Real.exp v1 + Real.exp v2)

/-- `models.logit(V, av, 2)` with both alternatives available: the MNL choice
probability of alternative 2. -/
noncomputable def logitProb2 (v1 v2 : ℝ) : ℝ :=
  Real.exp v2 / (Real.exp v1 + Real.exp v2)

/-! ## The persisted interchange format

`df[['RESP','TC1','TT1','TC2','TT2','CHOICE']].to_csv(path, sep=',',
index=False)` writes a header line followed by one comma-separated line of
decimal integers per observation.  A file is modelled as a list of lines,
a line as a list of characters. -/

/-- A written data row: the six columns saved by `to_csv` (after
`astype(int)` the choice is an integer, 1 or 2). -/
structure CsvRow where
  resp : ℕ
  tc1 : ℤ
  tt1 : ℤ
  tc2 : ℤ
  tt2 : ℤ
  choice : ℕ
  deriving DecidableEq, Repr

/-- The decimal digit `d` as the ASCII character `'0' + d`. -/
def digitToChar (d : ℕ) : Char := Char.ofNat (48 + d)

/-- The numeric value of an ASCII digit character. -/
def digitVal (c : Char) : ℕ := c.toNat - 48

/-- The decimal text of a natural number: its digits, most significant
first. -/
def encodeNat (n : ℕ) : List Char :=
  if n = 0 then [digitToChar 0] else (Nat.digits 10 n).reverse.map digitToChar

/-- Parse a nonempty string of digit characters back to a natural number. -/
def decodeNat (l : List Char) : Option ℕ :=
  if l = [] then none else some (Nat.ofDigits 10 ((l.map digitVal).reverse))

/-- The decimal text of an integer: a leading minus sign when negative. -/
def encodeInt (z : ℤ) : List Char :=
  if z < 0 then '-' :: encodeNat z.natAbs else encodeNat z.toNat

/-- Parse an optionally signed decimal integer. -/
def decodeInt : List Char → Option ℤ
  | [] => none
  | c :: cs =>
    if c = '-' then (decodeNat cs).map (fun n => -(n : ℤ))
    else (decodeNat (c :: cs)).map (fun n => (n : ℤ))

/-- The header line written by `to_csv`. -/
def csvHeader : List Char := "RESP,TC1,TT1,TC2,TT2,CHOICE".toList

/-- One comma-separated data line. -/
def encodeRow (r : CsvRow) : List Char :=
  List.intercalate [',']
    [encodeNat r.resp, encodeInt r.tc1, encodeInt r.tt1,
     encodeInt r.tc2, encodeInt r.tt2, encodeNat r.choice]

/-- Parse one data line: split on commas, expect exactly six cells. -/
def decodeRow (line : List Char) : Option CsvRow :=
  match line.splitOn ',' with
  | [c1, c2, c3, c4, c5, c6] => do
    let resp ← decodeNat c1
    let tc1 ← decodeInt c2
    let tt1 ← decodeInt c3
    let tc2 ← decodeInt c4
    let tt2 ← decodeInt c5
    let choice ← decodeNat c6
    pure ⟨resp, tc1, tt1, tc2, tt2, choice⟩
  | _ => none

/-- Parse the data lines one by one, failing if any line fails. -/
def decodeRows : List (List Char) → Option (List CsvRow)
  | [] => some []
  | l :: ls => do
    let r ← decodeRow l
    let rs ← decodeRows ls
    pure (r :: rs)

/-- `to_csv`: the header line followed by the encoded rows, in order. -/
def writeCsv (rows : List CsvRow) : List (List Char) :=
  csvHeader :: rows.map encodeRow

/-- `read_csv`: check the header line and parse the remaining lines. -/
def readCsv (file : List (List Char)) : Option (List CsvRow) :=
  match file with
  | [] => none
  | h :: rest => if h = csvHeader then decodeRows rest else none

/-- Closed form of `drawColumn`: a column of `n` draws starting at position
`p` returns the stream values at positions `p, p+1, …, p+n-1` and leaves the
position at `p + n`. -/
lemma drawColumn_eq (s : ℕ → ℚ) : ∀ n p : ℕ,
    drawColumn s n p = ((List.range n).map (fun i => s (p + i)), p + n) := by
  intro n
  induction n with
  | zero => intro p; simp [drawColumn]
  | succ n ih =>
    intro p
    have h1 : (fun i => s (p + 1 + i)) = fun i => s (p + (i + 1)) := by
      funext i; congr 1; omega
    simp only [drawColumn, drawGumbel, ih (p + 1), List.range_succ_eq_map,
      List.map_cons, List.map_map, Function.comp_def, h1]
    refine congrArg₂ Prod.mk ?_ (by omega)
    simp

lemma respIds_length (N T : ℕ) : (respIds N T).length = N * T := by
  simp [respIds, List.length_flatMap, Function.comp_def, List.map_const',
    List.sum_replicate, smul_eq_mul]

lemma tile_length (ts : List Task) (N : ℕ) : (tile ts N).length = N * ts.length := by
  simp [tile, List.length_flatten, List.map_replicate]

lemma dfRows_length (ts : List Task) (N : ℕ) :
    (dfRows ts N).length = N * ts.length := by
  simp [dfRows, List.length_zip, respIds_length, tile_length]

/-- Zipping a constant column against a list tags every element with the
constant. -/
lemma zip_replicate_left {α β : Type} (a : α) :
    ∀ l : List β, (List.replicate l.length a).zip l = l.map (fun x => (a, x))
  | [] => rfl
  | x :: xs => by
    simp [List.replicate_succ, zip_replicate_left a xs]

/-- The dataframe rows are exactly the nested loop "for each respondent
`r = 1..N`, for each task in order, one row `(r, task)`". -/
lemma dfRows_eq_flatMap (ts : List Task) : ∀ N : ℕ,
    dfRows ts N = (List.range N).flatMap (fun r => ts.map (fun t => (r + 1, t))) := by
  intro N
  induction N with
  | zero => rfl
  | succ N ih =>
    have hlen : (respIds N ts.length).length = (tile ts N).length := by
      rw [respIds_length, tile_length]
    have hrep : List.replicate (N + 1) ts = List.replicate N ts ++ [ts] := by
      rw [← List.replicate_succ']
    calc dfRows ts (N + 1)
        = (respIds N ts.length ++ List.replicate ts.length (N + 1)).zip
            (tile ts N ++ ts) := by
          simp only [dfRows, respIds, tile, List.range_succ, List.flatMap_append,
            List.flatMap_singleton, hrep, List.flatten_append]
          simp
      _ = dfRows ts N ++ (List.replicate ts.length (N + 1)).zip ts := by
          rw [List.zip_append hlen]; rfl
      _ = (List.range (N + 1)).flatMap (fun r => ts.map (fun t => (r + 1, t))) := by
          rw [ih, List.range_succ, List.flatMap_append, List.flatMap_singleton,
            zip_replicate_left]

/-- Closed form of the code's two-column draw: the `epsilon1` column takes
stream positions `0..n-1` and the `epsilon2` column positions `n..2n-1`. -/
lemma epsilonColumns_eq (s : ℕ → ℚ) (n : ℕ) :
    epsilonColumns s n = ((List.range n).map s, (List.range n).map (fun i => s (n + i))) := by
  simp only [epsilonColumns, drawColumn_eq]
  refine congrArg₂ Prod.mk ?_ ?_ <;>
    refine List.map_congr_left (fun i _ => ?_) <;> congr 1 <;> omega

lemma generate_length (prng : ℕ → ℕ → ℚ) (ts : List Task) (N : ℕ)
    (p : TrueParams) (seed : ℕ) (st : RngState) :
    (generate prng ts N p seed st).length = N * ts.length := by
  simp [generate, epsilonColumns_eq, dfRows_length]

/-- Dropping the simulated columns from the generated observations leaves
exactly the dataframe rows, in order. -/
lemma generate_map_fst (prng : ℕ → ℕ → ℚ) (ts : List Task) (N : ℕ)
    (p : TrueParams) (seed : ℕ) (st : RngState) :
    (generate prng ts N p seed st).map (fun o => (o.resp, o.task)) = dfRows ts N := by
  unfold generate
  simp only [List.map_map]
  have hcomp : ((fun o : Obs => (o.resp, o.task)) ∘ mkObs p) =
      (Prod.fst : (ℕ × Task) × ℚ × ℚ → ℕ × Task) := by
    funext rt; rfl
  rw [hcomp, List.map_fst_zip]
  simp [epsilonColumns_eq]

/-- Every generated observation's choice column is the `choiceOf` of its own
total utilities. -/
lemma generate_choice_eq {prng : ℕ → ℕ → ℚ} {ts : List Task} {N : ℕ}
    {p : TrueParams} {seed : ℕ} {st : RngState} {o : Obs}
    (ho : o ∈ generate prng ts N p seed st) : o.choice = choiceOf o.u1 o.u2 := by
  unfold generate at ho
  obtain ⟨rt, -, rfl⟩ := List.mem_map.mp ho
  rfl

/-! ## Round-trip lemmas for the interchange format -/

lemma digitVal_digitToChar {d : ℕ} (h : d < 10) : digitVal (digitToChar d) = d := by
  interval_cases d <;> decide

lemma digitToChar_ne {d : ℕ} (h : d < 10) : digitToChar d ≠ ',' ∧ digitToChar d ≠ '-' := by
  interval_cases d <;> exact ⟨by decide, by decide⟩

lemma mem_encodeNat {n : ℕ} {c : Char} (hc : c ∈ encodeNat n) :
    ∃ d, d < 10 ∧ c = digitToChar d := by
  unfold encodeNat at hc
  split at hc
  · exact ⟨0, by norm_num, by simpa using hc⟩
  · obtain ⟨d, hd, rfl⟩ := List.mem_map.mp hc
    exact ⟨d, Nat.digits_lt_base (by norm_num) (List.mem_reverse.mp hd), rfl⟩

lemma comma_not_mem_encodeNat (n : ℕ) : ',' ∉ encodeNat n := by
  intro hc
  obtain ⟨d, hd, he⟩ := mem_encodeNat hc
  exact (digitToChar_ne hd).1 he.symm

lemma encodeNat_ne_nil (n : ℕ) : encodeNat n ≠ [] := by
  unfold encodeNat
  split
  · simp
  · simpa using Nat.digits_ne_nil_iff_ne_zero.mpr (by assumption)

lemma decodeNat_encodeNat (n : ℕ) : decodeNat (encodeNat n) = some n := by
  by_cases h : n = 0
  · subst h; decide
  · rw [decodeNat, if_neg (encodeNat_ne_nil n)]
    rw [encodeNat, if_neg h]
    simp only [List.map_reverse, List.map_map, List.reverse_reverse, Function.comp_def]
    have hdig : (Nat.digits 10 n).map (fun d => digitVal (digitToChar d)) = Nat.digits 10 n := by
      rw [List.map_congr_left
        (fun d hd => digitVal_digitToChar (Nat.digits_lt_base (by norm_num) hd))]
      exact List.map_id _
    rw [hdig, Nat.ofDigits_digits]

lemma comma_not_mem_encodeInt (z : ℤ) : ',' ∉ encodeInt z := by
  unfold encodeInt
  split
  · intro hc
    rcases List.mem_cons.mp hc with h | h
    · exact absurd h (by decide)
    · exact comma_not_mem_encodeNat _ h
  · exact comma_not_mem_encodeNat _

lemma decodeInt_encodeInt (z : ℤ) : decodeInt (encodeInt z) = some z := by
  by_cases hz : z < 0
  · rw [encodeInt, if_pos hz]
    show decodeInt ('-' :: encodeNat z.natAbs) = some z
    rw [decodeInt, if_pos rfl, decodeNat_encodeNat]
    show some (-(z.natAbs : ℤ)) = some z
    congr 1
    omega
  · rw [encodeInt, if_neg hz]
    rcases hcons : encodeNat z.toNat with - | ⟨c, cs⟩
    · exact absurd hcons (encodeNat_ne_nil _)
    · have hc : c ≠ '-' := by
        have : c ∈ encodeNat z.toNat := by rw [hcons]; exact List.mem_cons_self c cs
        obtain ⟨d, hd, rfl⟩ := mem_encodeNat this
        exact (digitToChar_ne hd).2
      rw [decodeInt, if_neg hc, ← hcons, decodeNat_encodeNat]
      show some ((z.toNat : ℤ)) = some z
      congr 1
      omega

lemma splitOn_encodeRow (r : CsvRow) :
    (encodeRow r).splitOn ',' =
      [encodeNat r.resp, encodeInt r.tc1, encodeInt r.tt1,
       encodeInt r.tc2, encodeInt r.tt2, encodeNat r.choice] := by
  refine List.splitOn_intercalate _ ',' ?_ (by simp)
  intro l hl
  simp only [List.mem_cons, List.not_mem_nil, or_false] at hl
  rcases hl with rfl | rfl | rfl | rfl | rfl | rfl
  · exact comma_not_mem_encodeNat _
  · exact comma_not_mem_encodeInt _
  · exact comma_not_mem_encodeInt _
  · exact comma_not_mem_encodeInt _
  · exact comma_not_mem_encodeInt _
  · exact comma_not_mem_encodeNat _

lemma decodeRow_encodeRow (r : CsvRow) : decodeRow (encodeRow r) = some r := by
  rw [decodeRow, splitOn_encodeRow]
  simp [decodeNat_encodeNat, decodeInt_encodeInt]

lemma decodeRows_encodeRows (rows : List CsvRow) :
    decodeRows (rows.map encodeRow) = some rows := by
  induction rows with
  | nil => rfl
  | cons r rs ih => simp [decodeRows, decodeRow_encodeRow, ih]

/-- Head form of a mapped range, used to read off the first draw of each
epsilon column. -/
lemma range_map_head (m : ℕ) (f : ℕ → ℚ) :
    (List.range (m + 1)).map f = f 0 :: (List.range m).map (fun i => f (i + 1)) := by
  simp [List.range_succ_eq_map, List.map_map, Function.comp_def]

/-- The first generated observation pairs the first dataframe row (respondent
1, first task) with the stream values at positions 0 and `n` (`n` = number of
rows), per the column-wise draw. -/
lemma generate_head (prng : ℕ → ℕ → ℚ) (t0 : Task) (ts' : List Task) (N : ℕ)
    (p : TrueParams) (seed : ℕ) (st : RngState) :
    (generate prng (t0 :: ts') (N + 1) p seed st).head? =
      some (mkObs p ((1, t0), (prng seed 0, prng seed ((N + 1) * (ts'.length + 1))))) := by
  have hR0 : dfRows (t0 :: ts') (N + 1) =
      (1, t0) :: (ts'.map (fun t => (1, t)) ++
        ((List.range N).map Nat.succ).flatMap
          (fun r => (r + 1, t0) :: ts'.map (fun t => (r + 1, t)))) := by
    rw [dfRows_eq_flatMap, List.range_succ_eq_map, List.flatMap_cons]
    simp
  obtain ⟨R, hR⟩ : ∃ R, dfRows (t0 :: ts') (N + 1) = (1, t0) :: R := ⟨_, hR0⟩
  clear hR0
  have hRlen : R.length + 1 = (N + 1) * (ts'.length + 1) := by
    have h1 := dfRows_length (t0 :: ts') (N + 1)
    rw [hR] at h1
    simpa using h1
  simp only [generate, seedRng]
  rw [hR, epsilonColumns_eq]
  rw [show ((1, t0) :: R).length = R.length + 1 from rfl]
  rw [range_map_head R.length (prng seed),
    range_map_head R.length (fun i => prng seed (R.length + 1 + i))]
  simp only [List.zip_cons_cons, List.map_cons, List.head?_cons]
  rw [show R.length + 1 + 0 = (N + 1) * (ts'.length + 1) by rw [Nat.add_zero]; exact hRlen]

/-! ## The claims -/

/-- C1, counterexample: the claim that the seeded stream is consumed
observation by observation (ε1 then ε2 per task, per respondent) is false of
the code.  Already with two observations and the identity stream, the code's
column-wise draw `(ε1 = [s0, s1], ε2 = [s2, s3])` differs from the claimed
interleaved draw `(ε1 = [s0, s2], ε2 = [s1, s3])`. -/
theorem c1_draw_order_counterexample :
    epsilonColumns (fun k => (k : ℚ)) 2 ≠ epsilonInterleaved (fun k => (k : ℚ)) 2 0 := by
  decide

/-- C1, amended: the Generator consumes the seeded stream column by column:
the `epsilon1` column takes stream positions `0..n-1` in ascending
respondent/task order, and the `epsilon2` column takes positions `n..2n-1` in
the same order (`n` = number of observations).  Each observation's ε1 is
therefore drawn before its ε2, but the stream is consumed column by column,
not observation by observation. -/
theorem c1_draw_order_columnwise (s : ℕ → ℚ) (n : ℕ) :
    epsilonColumns s n =
      ((List.range n).map s, (List.range n).map (fun i => s (n + i))) :=
  epsilonColumns_eq s n

/-- C2: on Scenario A inputs (the notebook's five tasks, 200 respondents, the
true parameters, seed 42) the Generator yields exactly 1000 observations, and
for every stream and every incoming RNG state the first observation is
respondent 1 with task `(cost1=4, time1=35, cost2=8, time2=25)` and
deterministic utilities `V1 = -5.1` and `V2 = -4.7`. -/
theorem c2_scenarioA (prng : ℕ → ℕ → ℚ) (st : RngState) :
    (generate prng tasks numRespondents trueParams 42 st).length = 1000 ∧
      ((generate prng tasks numRespondents trueParams 42 st).head?).map
          (fun o => (o.resp, o.task, o.v1, o.v2)) =
        some (1, ⟨4, 35, 8, 25⟩, -51/10, -47/10) := by
  constructor
  · rw [generate_length]; rfl
  · have h := generate_head prng ⟨4, 35, 8, 25⟩
      [⟨4, 35, 8, 30⟩, ⟨6, 40, 7, 20⟩, ⟨5, 30, 6, 25⟩, ⟨5, 40, 7, 20⟩]
      199 trueParams 42 st
    have h2 : (generate prng tasks numRespondents trueParams 42 st).head? =
        some (mkObs trueParams ((1, ⟨4, 35, 8, 25⟩), (prng 42 0, prng 42 1000))) := h
    rw [h2]
    simp only [Option.map, mkObs]
    norm_num [V1, V2, trueParams]

/-- C3: the Generator is deterministic given its inputs: for every stream
algorithm, every input tuple and every seed, two runs agree exactly, whatever
global RNG state each run starts from, because `np.random.seed` overwrites
that state. -/
theorem c3_deterministic (prng : ℕ → ℕ → ℚ) (ts : List Task) (N : ℕ)
    (p : TrueParams) (seed : ℕ) (st1 st2 : RngState) :
    generate prng ts N p seed st1 = generate prng ts N p seed st2 := rfl

/-- C4: every generated observation with `U1 ≠ U2` has exactly one of
`choice = 1`, `choice = 2`, with `choice = 1` exactly when `U1 > U2` and
`choice = 2` exactly when `U2 > U1`. -/
theorem c4_choice_exactly_one {prng : ℕ → ℕ → ℚ} {ts : List Task} {N : ℕ}
    {p : TrueParams} {seed : ℕ} {st : RngState} (o : Obs)
    (ho : o ∈ generate prng ts N p seed st) (hne : o.u1 ≠ o.u2) :
    (o.choice = some 1 ↔ o.u1 > o.u2) ∧ (o.choice = some 2 ↔ o.u2 > o.u1) ∧
      ((o.choice = some 1 ∧ o.choice ≠ some 2) ∨
        (o.choice = some 2 ∧ o.choice ≠ some 1)) := by
  have hc := generate_choice_eq ho
  rcases lt_trichotomy o.u1 o.u2 with h | h | h
  · have h1 : ¬ o.u1 > o.u2 := not_lt.mpr h.le
    rw [hc, choiceOf, if_neg h1, if_pos h]
    refine ⟨⟨fun hx => absurd (Option.some.inj hx) (by norm_num), fun hx => absurd hx h1⟩,
      ⟨fun _ => h, fun _ => rfl⟩, Or.inr ⟨rfl, by simp⟩⟩
  · exact absurd h hne
  · have h2 : ¬ o.u2 > o.u1 := not_lt.mpr h.le
    rw [hc, choiceOf, if_pos h]
    refine ⟨⟨fun _ => h, fun _ => rfl⟩,
      ⟨fun hx => absurd (Option.some.inj hx) (by norm_num), fun hx => absurd hx h2⟩,
      Or.inl ⟨rfl, by simp⟩⟩

/-- The concrete run backing the C4 witness: one respondent, one task, the
identity stream; the single observation has `U1 = -5.1`, `U2 = -3.7`. -/
lemma c4_witness_run :
    generate (fun _ k => (k : ℚ)) [⟨4, 35, 8, 25⟩] 1 trueParams 0 ⟨0, 0⟩ =
      [⟨1, ⟨4, 35, 8, 25⟩, -51/10, -47/10, 0, 1, -51/10, -37/10, some 2⟩] := by
  have hrows : dfRows [(⟨4, 35, 8, 25⟩ : Task)] 1 = [(1, ⟨4, 35, 8, 25⟩)] := by
    rw [dfRows_eq_flatMap, show List.range 1 = [0] from rfl]; simp
  simp only [generate, seedRng]
  rw [hrows]
  rw [show ([((1 : ℕ), (⟨4, 35, 8, 25⟩ : Task))]).length = 1 from rfl]
  rw [epsilonColumns_eq, show List.range 1 = [0] from rfl]
  simp only [List.map_cons, List.map_nil, List.zip_cons_cons, List.zip_nil_right]
  norm_num [mkObs, V1, V2, trueParams, choiceOf]

/-- C4, witness: a concrete one-task, one-respondent run in which the single
observation has `U1 = -5.1 < U2 = -3.7` and hence `choice = 2`. -/
theorem c4_choice_exactly_one_witness :
    ((⟨1, ⟨4, 35, 8, 25⟩, -51/10, -47/10, 0, 1, -51/10, -37/10, some 2⟩ : Obs) ∈
        generate (fun _ k => (k : ℚ)) [⟨4, 35, 8, 25⟩] 1 trueParams 0 ⟨0, 0⟩) ∧
      (((-51/10 : ℚ) ≠ -37/10) ∧
        (((some 2 : Option ℕ) = some 1 ↔ (-51/10 : ℚ) > -37/10) ∧
          ((some 2 : Option ℕ) = some 2 ↔ (-37/10 : ℚ) > -51/10) ∧
          (((some 2 : Option ℕ) = some 1 ∧ (some 2 : Option ℕ) ≠ some 2) ∨
            ((some 2 : Option ℕ) = some 2 ∧ (some 2 : Option ℕ) ≠ some 1)))) :=
  have hmem : (⟨1, ⟨4, 35, 8, 25⟩, -51/10, -47/10, 0, 1, -51/10, -37/10, some 2⟩ : Obs) ∈
      generate (fun _ k => (k : ℚ)) [⟨4, 35, 8, 25⟩] 1 trueParams 0 ⟨0, 0⟩ := by
    rw [c4_witness_run]; exact List.mem_singleton_self _
  ⟨hmem, by norm_num, c4_choice_exactly_one _ hmem (by norm_num)⟩

/-- C5: a generated observation with tied total utilities keeps the initial
missing value: its choice is neither alternative 1 nor alternative 2, and the
subsequent `astype(int)` raises on it instead of silently defaulting. -/
theorem c5_tie_unresolved {prng : ℕ → ℕ → ℚ} {ts : List Task} {N : ℕ}
    {p : TrueParams} {seed : ℕ} {st : RngState} (o : Obs)
    (ho : o ∈ generate prng ts N p seed st) (heq : o.u1 = o.u2) :
    o.choice = none ∧ o.choice ≠ some 1 ∧ o.choice ≠ some 2 ∧
      castChoiceInt o.choice =
        Except.error "cannot convert non-finite values to integer" := by
  have hc := generate_choice_eq ho
  have hnone : o.choice = none := by
    rw [hc, choiceOf, heq]
    simp
  exact ⟨hnone, by simp [hnone], by simp [hnone], by rw [hnone]; rfl⟩

/-- The concrete run backing the C5 witness: one respondent, one task, and a
stream whose two draws differ by exactly `V2 - V1`, forcing `U1 = U2`. -/
lemma c5_witness_run :
    generate (fun _ k => if k = 0 then 0 else (-2/5 : ℚ)) [⟨4, 35, 8, 25⟩] 1
        trueParams 0 ⟨0, 0⟩ =
      [⟨1, ⟨4, 35, 8, 25⟩, -51/10, -47/10, 0, -2/5, -51/10, -51/10, none⟩] := by
  have hrows : dfRows [(⟨4, 35, 8, 25⟩ : Task)] 1 = [(1, ⟨4, 35, 8, 25⟩)] := by
    rw [dfRows_eq_flatMap, show List.range 1 = [0] from rfl]; simp
  simp only [generate, seedRng]
  rw [hrows]
  rw [show ([((1 : ℕ), (⟨4, 35, 8, 25⟩ : Task))]).length = 1 from rfl]
  rw [epsilonColumns_eq, show List.range 1 = [0] from rfl]
  simp only [List.map_cons, List.map_nil, List.zip_cons_cons, List.zip_nil_right]
  norm_num [mkObs, V1, V2, trueParams, choiceOf]

/-- C5, witness: a concrete run whose single observation has
`U1 = U2 = -5.1`; its choice is unresolved and `astype(int)` fails. -/
theorem c5_tie_unresolved_witness :
    ((⟨1, ⟨4, 35, 8, 25⟩, -51/10, -47/10, 0, -2/5, -51/10, -51/10, none⟩ : Obs) ∈
        generate (fun _ k => if k = 0 then 0 else (-2/5 : ℚ)) [⟨4, 35, 8, 25⟩] 1
          trueParams 0 ⟨0, 0⟩) ∧
      ((-51/10 : ℚ) = -51/10 ∧
        ((none : Option ℕ) = none ∧ (none : Option ℕ) ≠ some 1 ∧
          (none : Option ℕ) ≠ some 2 ∧
          castChoiceInt none =
            Except.error "cannot convert non-finite values to integer")) :=
  have hmem : (⟨1, ⟨4, 35, 8, 25⟩, -51/10, -47/10, 0, -2/5, -51/10, -51/10, none⟩ : Obs) ∈
      generate (fun _ k => if k = 0 then 0 else (-2/5 : ℚ)) [⟨4, 35, 8, 25⟩] 1
        trueParams 0 ⟨0, 0⟩ := by
    rw [c5_witness_run]; exact List.mem_singleton_self _
  ⟨hmem, rfl, c5_tie_unresolved _ hmem rfl⟩

/-- C6: for every pair of deterministic utilities, the estimator's binary
logit probabilities sum to 1. -/
theorem c6_logit_probs_sum_one (v1 v2 : ℝ) :
    logitProb1 v1 v2 + logitProb2 v1 v2 = 1 := by
  have h : Real.exp v1 + Real.exp v2 ≠ 0 := by positivity
  rw [logitProb1, logitProb2, div_add_div_same, div_self h]

/-- C7: writing any observation sequence to the tabular interchange format
(comma-separated decimal columns with a header row) and reading it back
yields the identical sequence: same columns, same row order, same values. -/
theorem c7_csv_roundTrip (rows : List CsvRow) :
    readCsv (writeCsv rows) = some rows := by
  simp [readCsv, writeCsv, decodeRows_encodeRows]

/-- C8: the Generator's output carries one row per (respondent, task) pair,
ordered by respondent then task: projecting each observation to its
respondent id and task gives exactly the nested loop "for each respondent
`r = 1..N`, for each task in input order". -/
theorem c8_row_order (prng : ℕ → ℕ → ℚ) (ts : List Task) (N : ℕ)
    (p : TrueParams) (seed : ℕ) (st : RngState) :
    (generate prng ts N p seed st).map (fun o => (o.resp, o.task)) =
      (List.range N).flatMap (fun r => ts.map (fun t => (r + 1, t))) := by
  rw [generate_map_fst, dfRows_eq_flatMap]

/-- C10: in the correctly specified model the constant of alternative 1 is
created fixed (`Beta('ASC1', 0, None, None, 1)`): its flag is 1, its value
0, and the estimation optimises exactly the three parameters `B_TT`, `B_TC`,
`ASC2`; `ASC1` is not among them. -/
theorem c10_asc1_normalised :
    ASC1.fixedFlag = 1 ∧ ASC1.start = 0 ∧
      freeParams = [B_TT, B_TC, ASC2] ∧ freeParams.length = 3 ∧
      ASC1 ∉ freeParams := by
  decide

end Tutorial1
